import Mathlib

/-!
Shallow embedding of the weather-alerts condition evaluation engine
(`src/conditions/evaluator.py`) and of the email template substitution
(`src/actions/email.py`), together with theorems settling the spec claims.

Python dictionaries are modelled as association lists with an insertion
operation that updates in place (keeping the original key position), which is
exactly CPython's dict-assignment semantics.  Python numbers are modelled as
rationals, strings as `String`, JSON documents as the inductive `JVal`, and
Python exceptions as `Except PyError`.
-/

namespace WeatherAlerts

/-- Values stored in a template-substitution context: the forecast date is a
string, matched field values are numbers. -/
inductive Val where
  | str (s : String)
  | num (q : Rat)
deriving DecidableEq

/-- A substitution context, modelling the Python dict passed to actions. -/
abbrev Ctx := List (String × Val)

/-- Python dict assignment `d[k] = v`: if the key is present its value is
updated in place (the key keeps its position), otherwise the pair is appended. -/
def dict_insert {α : Type} : List (String × α) → String → α → List (String × α)
  | [], k, v => [(k, v)]
  | (k', v') :: rest, k, v =>
    if k' = k then (k', v) :: rest else (k', v') :: dict_insert rest k v

/-- One daily forecast record (spec section 3): a date plus named
numeric-or-null fields.  `day_data.get(f)` on a missing key and on an explicit
null both yield no value. -/
structure DailyForecast where
  date : String
  fields : List (String × Option Rat)
deriving DecidableEq

/-- Model of `day_data.get(field)` flattening "absent" and "null" into `none`. -/
def get_field (d : DailyForecast) (f : String) : Option Rat :=
  match d.fields.lookup f with
  | some (some v) => some v
  | _ => none

/-- Result of evaluating a condition: `{'triggered': bool}` with an optional
`'context'` entry. -/
structure EvalResult where
  triggered : Bool
  context : Option Ctx
deriving DecidableEq

/-- Embedding of `ConditionEvaluator._compare_value` (evaluator.py lines
181-204): five known comparison operators, anything else is false. -/
def compare_value (value : Rat) (op : String) (threshold : Rat) : Bool :=
  if op = "lt" then decide (value < threshold)
  else if op = "lte" then decide (value ≤ threshold)
  else if op = "gt" then decide (value > threshold)
  else if op = "gte" then decide (value ≥ threshold)
  else if op = "eq" then decide (value = threshold)
  else false

/-- Embedding of `ConditionEvaluator._is_in_season` (evaluator.py lines
206-221). -/
def is_in_season (current_month start_month end_month : Int) : Bool :=
  if start_month ≤ end_month then
    decide (start_month ≤ current_month ∧ current_month ≤ end_month)
  else
    decide (current_month ≥ start_month ∨ current_month ≤ end_month)

/-- The `weather_condition` configuration dict of a threshold condition.
`forecast_days` is `none` when the key is absent (the code then defaults
to 1). -/
structure WeatherCond where
  field : String
  operator : String
  value : Rat
  forecast_days : Option Nat
deriving DecidableEq

/-- The context dict built on a threshold match (evaluator.py lines 86-92):
`{'forecast_date': day_data['date'], field: value}` with Python dict
literal semantics. -/
def threshold_context (wc : WeatherCond) (date : String) (v : Rat) : Ctx :=
  dict_insert (dict_insert [] ("forecast_date") (Val.str date)) wc.field (Val.num v)

/-- The scanning loop of `_evaluate_threshold` (evaluator.py lines 79-94) over
the already-truncated window. -/
def threshold_go (wc : WeatherCond) : List DailyForecast → EvalResult
  | [] => ⟨false, none⟩
  | d :: rest =>
    match get_field d wc.field with
    | none => threshold_go wc rest
    | some v =>
      if compare_value v wc.operator wc.value then
        ⟨true, some (threshold_context wc d.date v)⟩
      else
        threshold_go wc rest

/-- Embedding of `ConditionEvaluator._evaluate_threshold` (evaluator.py lines
62-94): scan `forecast_data[:forecast_days]` for the first matching record. -/
def evaluate_threshold (wc : WeatherCond) (forecast_data : List DailyForecast) : EvalResult :=
  threshold_go wc (forecast_data.take (wc.forecast_days.getD 1))

/-- A combined condition: ordered sub-condition list plus the optional
`all_must_match` flag (absent defaults to true). -/
structure CombinedCond where
  weather_conditions : List WeatherCond
  all_must_match : Option Bool
deriving DecidableEq

/-- Python `dict.update`: fold the right dict's entries into the left one. -/
def ctx_update (ctx other : Ctx) : Ctx :=
  other.foldl (fun acc kv => dict_insert acc kv.1 kv.2) ctx

/-- Embedding of `ConditionEvaluator._evaluate_combined` (evaluator.py lines
139-179).  The loop collects the contexts of triggered sub-evaluations and
counts matches; on trigger the contexts are merged left to right with
`dict.update`.  In the source `result['context']` is read only when
`result['triggered']` is true, in which case `_evaluate_threshold` always
supplies a context, so the `getD []` default is never exercised. -/
def evaluate_combined (c : CombinedCond) (forecast_data : List DailyForecast) : EvalResult :=
  let p := c.weather_conditions.foldl
    (fun (acc : List Ctx × Nat) wc =>
      let result := evaluate_threshold wc forecast_data
      if result.triggered then (acc.1 ++ [result.context.getD []], acc.2 + 1) else acc)
    ([], 0)
  let triggered :=
    match c.all_must_match.getD true with
    | true => decide (p.2 = c.weather_conditions.length)
    | false => decide (0 < p.2)
  if triggered then ⟨true, some (p.1.foldl ctx_update [])⟩ else ⟨false, none⟩

/-- JSON documents, modelling whatever `json.load` may return for the
persisted state file. -/
inductive JVal where
  | null
  | bool (b : Bool)
  | num (q : Rat)
  | str (s : String)
  | arr (xs : List JVal)
  | obj (fields : List (String × JVal))

/-- Python exceptions that the raw first-occurrence path can raise on an
ill-shaped state document. -/
inductive PyError where
  | keyError
  | typeError
  | attributeError
deriving DecidableEq

/-- The out-of-band inputs `datetime.now()` supplies: current year, current
month, and `str(now.date())`. -/
structure Now where
  year : Int
  month : Int
  date_string : String
deriving DecidableEq

/-- A first-occurrence condition: embedded threshold fields plus the optional
season bounds (`season_start_month` defaults to 1, `season_end_month`
to 12). -/
structure FirstOccCond where
  weather_condition : WeatherCond
  season_start_month : Option Int
  season_end_month : Option Int
deriving DecidableEq

/-- The state key of evaluator.py line 115:
`f"first_{field}_{season_start}_{season_end}"`. -/
def state_key (f : String) (season_start season_end : Int) : String :=
  "first_" ++ f ++ "_" ++ toString season_start ++ "_" ++ toString season_end

/-- Conversion of a context value into the JSON value stored in the state
document. -/
def val_to_jval : Val → JVal
  | Val.str s => JVal.str s
  | Val.num q => JVal.num q

/-- Model of `last_occurrence.get('year') == current_year`: a missing key or a
non-numeric stored value compares unequal to the integer year (Python `==`
between distinct types is false, not an error). -/
def year_matches (rec_fields : List (String × JVal)) (current_year : Int) : Bool :=
  match rec_fields.lookup ("year") with
  | some (JVal.num q) => decide (q = (current_year : Rat))
  | _ => false

/-- Context lookup for `weather_result['context']['forecast_date']`. -/
def context_forecast_date (c : Option Ctx) : Option Val :=
  match c with
  | some ctx => ctx.lookup ("forecast_date")
  | none => none

/-- Lines 125-137 of evaluator.py: run the embedded threshold; on trigger,
record `{'year': current_year, 'date': str(now.date()), 'forecast_date': ...}`
under the state key inside the `occurrences` dict and return the threshold
result unchanged, otherwise return not-triggered leaving the state alone. -/
def fire_threshold (c : FirstOccCond) (forecast_data : List DailyForecast) (now : Now)
    (state_fields occ_fields : List (String × JVal)) (key : String) :
    Except PyError (EvalResult × JVal) :=
  if (evaluate_threshold c.weather_condition forecast_data).triggered then
    match context_forecast_date (evaluate_threshold c.weather_condition forecast_data).context with
    | some v =>
      Except.ok (evaluate_threshold c.weather_condition forecast_data,
        JVal.obj (dict_insert state_fields ("occurrences")
          (JVal.obj (dict_insert occ_fields key
            (JVal.obj
              [(("year"), JVal.num (now.year : Rat)),
               (("date"), JVal.str now.date_string),
               (("forecast_date"), val_to_jval v)])))))
    | none => Except.error PyError.keyError
  else
    Except.ok (⟨false, none⟩, JVal.obj state_fields)

/-- Embedding of `ConditionEvaluator._evaluate_first_occurrence` (evaluator.py
lines 96-137) over a raw JSON state document.  `self.state['occurrences']` on
a non-object document raises a type error and on an object without the key a
key error; a record that is not an object has no `.get` method (attribute
error).  A non-object value under `occurrences` is modelled as a type error;
CPython's exact exception there depends on the value's runtime type, but no
claim concerns those states. -/
def evaluate_first_occurrence (c : FirstOccCond) (forecast_data : List DailyForecast)
    (now : Now) (state : JVal) : Except PyError (EvalResult × JVal) :=
  if is_in_season now.month (c.season_start_month.getD 1) (c.season_end_month.getD 12) = false then
    Except.ok (⟨false, none⟩, state)
  else
    match state with
    | JVal.obj state_fields =>
      match state_fields.lookup ("occurrences") with
      | some (JVal.obj occ_fields) =>
        match occ_fields.lookup
            (state_key c.weather_condition.field
              (c.season_start_month.getD 1) (c.season_end_month.getD 12)) with
        | some (JVal.obj rec_fields) =>
          if year_matches rec_fields now.year then
            Except.ok (⟨false, none⟩, state)
          else
            fire_threshold c forecast_data now state_fields occ_fields
              (state_key c.weather_condition.field
                (c.season_start_month.getD 1) (c.season_end_month.getD 12))
        | some _ => Except.error PyError.attributeError
        | none =>
          fire_threshold c forecast_data now state_fields occ_fields
            (state_key c.weather_condition.field
              (c.season_start_month.getD 1) (c.season_end_month.getD 12))
      | some _ => Except.error PyError.typeError
      | none => Except.error PyError.keyError
    | _ => Except.error PyError.typeError

/-- The empty store `{'occurrences': {}}` (evaluator.py line 30). -/
def empty_state : JVal := JVal.obj [(("occurrences"), JVal.obj [])]

/-- What reading the state file can come to before `_load_state` interprets
it: the file may be absent, unreadable, undecodable as JSON, or decodable to
some JSON document. -/
inductive LoadResult where
  | absent
  | ioError
  | parseError
  | parsed (doc : JVal)

/-- Embedding of `ConditionEvaluator._load_state` (evaluator.py lines 21-30):
absence, IO errors and JSON decode errors all fall back to the empty store;
any successfully decoded document is returned as is. -/
def load_state : LoadResult → JVal
  | LoadResult.absent => empty_state
  | LoadResult.ioError => empty_state
  | LoadResult.parseError => empty_state
  | LoadResult.parsed doc => doc

/-- Spec-side reading of one scan step (spec section 4.3): a record matches
when its named field is present, non-null and satisfies the comparator; the
match carries the record's date and the matched value. -/
def match_day (wc : WeatherCond) (d : DailyForecast) : Option (String × Rat) :=
  match get_field d wc.field with
  | none => none
  | some v => if compare_value v wc.operator wc.value then some (d.date, v) else none

/-- Spec-side scan (spec section 4.3): first matching record in order,
records with an absent or null field skipped. -/
def first_match (wc : WeatherCond) : List DailyForecast → Option (String × Rat)
  | [] => none
  | d :: rest =>
    match match_day wc d with
    | some r => some r
    | none => first_match wc rest

/-- Spec-side threshold contract, written from the spec's words: consider only
the first `forecast_days` records (default 1); trigger on the earliest match
with context of that record's date and matched value; otherwise no trigger and
no context. -/
def threshold_spec (wc : WeatherCond) (forecast_data : List DailyForecast) : EvalResult :=
  match first_match wc (forecast_data.take (wc.forecast_days.getD 1)) with
  | some (date, v) => ⟨true, some (threshold_context wc date v)⟩
  | none => ⟨false, none⟩

end WeatherAlerts

namespace WeatherAlerts

lemma threshold_go_eq_first_match (wc : WeatherCond) (l : List DailyForecast) :
    threshold_go wc l =
      match first_match wc l with
      | some (date, v) => ⟨true, some (threshold_context wc date v)⟩
      | none => ⟨false, none⟩ := by
  induction l with
  | nil => rfl
  | cons d rest ih =>
    simp only [threshold_go, first_match, match_day]
    cases h : get_field d wc.field with
    | none => exact ih
    | some v =>
      by_cases hc : compare_value v wc.operator wc.value
      · simp [hc]
      · simp [hc, ih]

lemma threshold_go_append_no_match (wc : WeatherCond) (pre l : List DailyForecast)
    (h : ∀ d ∈ pre, match_day wc d = none) :
    threshold_go wc (pre ++ l) = threshold_go wc l := by
  induction pre with
  | nil => rfl
  | cons d rest ih =>
    have hd := h d (List.mem_cons_self d rest)
    have hrest : ∀ d' ∈ rest, match_day wc d' = none :=
      fun d' hm => h d' (List.mem_cons_of_mem d hm)
    simp only [List.cons_append, threshold_go]
    simp only [match_day] at hd
    cases hg : get_field d wc.field with
    | none => exact ih hrest
    | some v =>
      rw [hg] at hd
      by_cases hc : compare_value v wc.operator wc.value
      · simp [hc] at hd
      · simp only [hc, if_false]
        exact ih hrest

/-- Claim C1: a threshold condition scans only the first `forecast_days`
records (default 1) in order, skips records whose field is absent or null,
triggers with context of the earliest matching record's date and value,
returns not-triggered with no context when nothing in the window matches, and
never inspects records after the first match (the result does not depend on
the part of the sequence after an in-window match). -/
theorem threshold_earliest_match_spec (wc : WeatherCond) (forecast_data : List DailyForecast) :
    evaluate_threshold wc forecast_data = threshold_spec wc forecast_data ∧
    (∀ (pre rest : List DailyForecast) (d : DailyForecast) (v : Rat),
      pre.length < wc.forecast_days.getD 1 →
      (∀ d2 ∈ pre, match_day wc d2 = none) →
      get_field d wc.field = some v →
      compare_value v wc.operator wc.value = true →
      evaluate_threshold wc (pre ++ d :: rest) = ⟨true, some (threshold_context wc d.date v)⟩) := by
  constructor
  · exact threshold_go_eq_first_match wc (forecast_data.take (wc.forecast_days.getD 1))
  · intro pre rest d v hlen hpre hg hc
    unfold evaluate_threshold
    rw [List.take_append_eq_append_take]
    have hpre_take : (wc.forecast_days.getD 1) - pre.length = ((wc.forecast_days.getD 1) - pre.length - 1) + 1 := by
      omega
    rw [List.take_of_length_le (le_of_lt hlen), hpre_take, List.take_succ_cons]
    rw [threshold_go_append_no_match wc pre _ hpre]
    simp [threshold_go, hg, hc]

/-- Witness for C1, using the spec's concrete scenario: precipitation
probability reaches 80 only on the third day; with a 3-day window the first
two days are skipped and the third triggers regardless of what follows. -/
theorem threshold_earliest_match_spec_witness :
    evaluate_threshold ⟨"precipitation_probability", "gte", 80, some 3⟩
      ([⟨"2024-01-15", [("precipitation_probability", some 20)]⟩,
        ⟨"2024-01-16", [("precipitation_probability", some 10)]⟩] ++
       ⟨"2024-01-17", [("precipitation_probability", some 80)]⟩ :: []) =
      ⟨true, some (threshold_context ⟨"precipitation_probability", "gte", 80, some 3⟩ "2024-01-17" 80)⟩ :=
  (threshold_earliest_match_spec ⟨"precipitation_probability", "gte", 80, some 3⟩ []).2
    [⟨"2024-01-15", [("precipitation_probability", some 20)]⟩,
     ⟨"2024-01-16", [("precipitation_probability", some 10)]⟩]
    [] ⟨"2024-01-17", [("precipitation_probability", some 80)]⟩ 80
    (by decide) (by decide) (by decide) (by decide)

/-- Claim C5: the comparator realizes the five operators lt, lte, gt, gte and
eq, and every other operator string evaluates to false. -/
theorem compare_value_spec (v t : Rat) (op : String) :
    compare_value v ("lt") t = decide (v < t) ∧
    compare_value v ("lte") t = decide (v ≤ t) ∧
    compare_value v ("gt") t = decide (v > t) ∧
    compare_value v ("gte") t = decide (v ≥ t) ∧
    compare_value v ("eq") t = decide (v = t) ∧
    (op ≠ ("lt") → op ≠ ("lte") → op ≠ ("gt") → op ≠ ("gte") → op ≠ ("eq") →
      compare_value v op t = false) := by
  refine ⟨?_, ?_, ?_, ?_, ?_, ?_⟩
  · simp [compare_value]
  · simp [compare_value]
  · simp [compare_value]
  · simp [compare_value]
  · simp [compare_value]
  · intro h1 h2 h3 h4 h5
    simp [compare_value, h1, h2, h3, h4, h5]

/-- Witness for C5 at concrete values, with the unknown-operator fail-safe
discharged at the operator string bogus. -/
theorem compare_value_spec_witness :
    compare_value 30 ("bogus") 32 = false :=
  (compare_value_spec 30 32 ("bogus")).2.2.2.2.2
    (by decide) (by decide) (by decide) (by decide) (by decide)

/-- Claim C6: season membership is the closed interval for non-wrapping
seasons, the wrap-around union for wrapping seasons, and both boundary months
are always in season. -/
theorem in_season_spec (m s e : Int)
    (hm1 : 1 ≤ m) (hm2 : m ≤ 12) (hs1 : 1 ≤ s) (hs2 : s ≤ 12)
    (he1 : 1 ≤ e) (he2 : e ≤ 12) :
    (s ≤ e → (is_in_season m s e = true ↔ (s ≤ m ∧ m ≤ e))) ∧
    (e < s → (is_in_season m s e = true ↔ (m ≥ s ∨ m ≤ e))) ∧
    is_in_season s s e = true ∧
    is_in_season e s e = true := by
  refine ⟨?_, ?_, ?_, ?_⟩ <;> simp only [is_in_season] <;> split <;> simp <;> omega

/-- Witness for C6 at a non-wrapping season, evaluated concretely. -/
theorem in_season_spec_witness :
    ((8 : Int) ≤ 12 → (is_in_season 10 8 12 = true ↔ ((8 : Int) ≤ 10 ∧ (10 : Int) ≤ 12))) ∧
    ((12 : Int) < 8 → (is_in_season 10 8 12 = true ↔ ((10 : Int) ≥ 8 ∨ (10 : Int) ≤ 12))) ∧
    is_in_season 8 8 12 = true ∧
    is_in_season 12 8 12 = true :=
  in_season_spec 10 8 12 (by decide) (by decide) (by decide) (by decide) (by decide) (by decide)

lemma lookup_cons_eq {α : Type} (k pk : String) (pv : α) (rest : List (String × α))
    (h : k = pk) : List.lookup k ((pk, pv) :: rest) = some pv := by
  rw [List.lookup, show (k == pk) = true from beq_iff_eq.mpr h]

lemma lookup_cons_ne {α : Type} (k pk : String) (pv : α) (rest : List (String × α))
    (h : ¬ (k = pk)) : List.lookup k ((pk, pv) :: rest) = rest.lookup k := by
  rw [List.lookup, show (k == pk) = false from beq_eq_false_iff_ne.mpr h]

lemma lookup_dict_insert {α : Type} (l : List (String × α)) (k k' : String) (v : α) :
    (dict_insert l k v).lookup k' = if k' = k then some v else l.lookup k' := by
  induction l with
  | nil =>
    by_cases h : k' = k
    · rw [dict_insert, lookup_cons_eq k' k v [] h, if_pos h]
    · rw [dict_insert, lookup_cons_ne k' k v [] h, if_neg h]
  | cons p rest ih =>
    obtain ⟨pk, pv⟩ := p
    rw [dict_insert]
    by_cases h : pk = k
    · rw [if_pos h]
      by_cases h2 : k' = pk
      · rw [lookup_cons_eq k' pk v rest h2, if_pos (h2.trans h)]
      · have h3 : ¬ (k' = k) := by rw [← h]; exact h2
        rw [lookup_cons_ne k' pk v rest h2, if_neg h3, lookup_cons_ne k' pk pv rest h2]
    · rw [if_neg h]
      by_cases h2 : k' = pk
      · have h3 : ¬ (k' = k) := fun hk => h (h2.symm.trans hk ▸ rfl)
        rw [lookup_cons_eq k' pk pv _ h2, if_neg h3, lookup_cons_eq k' pk pv rest h2]
      · rw [lookup_cons_ne k' pk pv _ h2, lookup_cons_ne k' pk pv rest h2, ih]

/-- Rightmost-entry lookup: the value of the last entry carrying the key, the
formal reading of last-write-wins at the entry level. -/
def entries_last (k : String) : List (String × Val) → Option Val
  | [] => none
  | p :: rest =>
    match entries_last k rest with
    | some v => some v
    | none => if p.1 = k then some p.2 else none

lemma insert_foldl_lookup (k : String) (l : List (String × Val)) : ∀ acc : Ctx,
    ((l.foldl (fun a kv => dict_insert a kv.1 kv.2) acc).lookup k) =
      match entries_last k l with
      | some v => some v
      | none => acc.lookup k := by
  induction l with
  | nil => intro acc; rfl
  | cons p rest ih =>
    intro acc
    simp only [List.foldl_cons, entries_last]
    rw [ih]
    cases h : entries_last k rest with
    | some v => simp
    | none =>
      simp only [lookup_dict_insert]
      by_cases h2 : p.1 = k
      · simp [h2]
      · have : ¬ (k = p.1) := fun hk => h2 hk.symm
        simp [h2, this]

lemma lookup_some_mem_keys {α : Type} {l : List (String × α)} {k : String} {v : α}
    (h : l.lookup k = some v) : k ∈ l.map Prod.fst := by
  induction l with
  | nil => simp [List.lookup] at h
  | cons p rest ih =>
    obtain ⟨pk, pv⟩ := p
    by_cases h2 : k = pk
    · simp [h2]
    · rw [lookup_cons_ne k pk pv rest h2] at h
      simp [ih h]

lemma entries_last_eq_lookup (k : String) (c : List (String × Val))
    (h : (c.map Prod.fst).Nodup) : entries_last k c = c.lookup k := by
  induction c with
  | nil => rfl
  | cons p rest ih =>
    obtain ⟨pk, pv⟩ := p
    rw [List.map_cons, List.nodup_cons] at h
    simp only [entries_last]
    rw [ih h.2]
    cases hl : rest.lookup k with
    | some v =>
      have hk : k ∈ rest.map Prod.fst := lookup_some_mem_keys hl
      have hne : ¬ (k = pk) := fun he2 => h.1 (he2 ▸ hk)
      simp only [hl]
      rw [lookup_cons_ne k pk pv rest hne, hl]
    | none =>
      simp only [hl]
      by_cases h2 : pk = k
      · rw [if_pos h2, lookup_cons_eq k pk pv rest h2.symm]
      · rw [if_neg h2, lookup_cons_ne k pk pv rest (fun hk => h2 hk.symm), hl]

/-- Last-write-wins merge semantics at the sub-context level (spec sections
4.5 and 9): the rightmost sub-context defining a key supplies its value. -/
def last_wins_lookup (ctxs : List Ctx) (k : String) : Option Val :=
  match ctxs with
  | [] => none
  | c :: rest =>
    match last_wins_lookup rest k with
    | some v => some v
    | none => c.lookup k

lemma foldl_ctx_update_lookup (k : String) (ctxs : List Ctx)
    (hnd : ∀ c ∈ ctxs, (c.map Prod.fst).Nodup) : ∀ acc : Ctx,
    ((ctxs.foldl ctx_update acc).lookup k) =
      match last_wins_lookup ctxs k with
      | some v => some v
      | none => acc.lookup k := by
  induction ctxs with
  | nil => intro acc; rfl
  | cons c rest ih =>
    intro acc
    simp only [List.foldl_cons, last_wins_lookup]
    rw [ih (fun c' hc' => hnd c' (List.mem_cons_of_mem c hc'))]
    have hc : (ctx_update acc c).lookup k =
        match c.lookup k with
        | some v => some v
        | none => acc.lookup k := by
      rw [show ctx_update acc c = c.foldl (fun a kv => dict_insert a kv.1 kv.2) acc from rfl,
        insert_foldl_lookup, entries_last_eq_lookup k c (hnd c (List.mem_cons_self c rest))]
    cases h1 : last_wins_lookup rest k with
    | some v => simp [h1]
    | none =>
      simp only [h1]
      rw [hc]

lemma threshold_context_keys_nodup (wc : WeatherCond) (date : String) (v : Rat) :
    ((threshold_context wc date v).map Prod.fst).Nodup := by
  by_cases h : ("forecast_date" : String) = wc.field
  · simp [threshold_context, dict_insert, h]
  · simp [threshold_context, dict_insert, h]

lemma evaluate_threshold_triggered_context (wc : WeatherCond) (fd : List DailyForecast)
    (h : (evaluate_threshold wc fd).triggered = true) :
    ∃ date v, (evaluate_threshold wc fd).context = some (threshold_context wc date v) := by
  unfold evaluate_threshold at h ⊢
  rw [threshold_go_eq_first_match] at h ⊢
  cases hm : first_match wc (fd.take (wc.forecast_days.getD 1)) with
  | none => rw [hm] at h; simp at h
  | some r =>
    obtain ⟨d, v⟩ := r
    exact ⟨d, v, rfl⟩

/-- Matches counted by a combined evaluation: the sub-conditions whose
independent threshold evaluation over the same forecast sequence triggers. -/
def sub_matches (forecast_data : List DailyForecast) (ws : List WeatherCond) : Nat :=
  (ws.filter (fun wc => (evaluate_threshold wc forecast_data).triggered)).length

/-- Contexts collected by a combined evaluation, in sub-condition list
order. -/
def sub_contexts (forecast_data : List DailyForecast) (ws : List WeatherCond) : List Ctx :=
  ws.filterMap (fun wc =>
    if (evaluate_threshold wc forecast_data).triggered then
      some ((evaluate_threshold wc forecast_data).context.getD [])
    else none)

lemma combined_foldl (fd : List DailyForecast) (ws : List WeatherCond) :
    ∀ acc : List Ctx × Nat,
    ws.foldl
      (fun (acc : List Ctx × Nat) wc =>
        if (evaluate_threshold wc fd).triggered then
          (acc.1 ++ [(evaluate_threshold wc fd).context.getD []], acc.2 + 1)
        else acc) acc
      = (acc.1 ++ sub_contexts fd ws, acc.2 + sub_matches fd ws) := by
  induction ws with
  | nil => intro acc; simp [sub_contexts, sub_matches]
  | cons wc rest ih =>
    intro acc
    simp only [List.foldl_cons]
    by_cases h : (evaluate_threshold wc fd).triggered
    · rw [if_pos h, ih]
      have hc : sub_contexts fd (wc :: rest) =
          (evaluate_threshold wc fd).context.getD [] :: sub_contexts fd rest := by
        simp [sub_contexts, h]
      have hm : sub_matches fd (wc :: rest) = sub_matches fd rest + 1 := by
        simp [sub_matches, List.filter_cons, h]
      rw [hc, hm, Prod.mk.injEq]
      constructor
      · simp [List.append_assoc]
      · omega
    · rw [if_neg h, ih]
      have hc : sub_contexts fd (wc :: rest) = sub_contexts fd rest := by
        simp [sub_contexts, h]
      have hm : sub_matches fd (wc :: rest) = sub_matches fd rest := by
        simp [sub_matches, List.filter_cons, h]
      rw [hc, hm]

lemma evaluate_combined_eq (c : CombinedCond) (fd : List DailyForecast) :
    evaluate_combined c fd =
      if (match c.all_must_match.getD true with
          | true => decide (sub_matches fd c.weather_conditions = c.weather_conditions.length)
          | false => decide (0 < sub_matches fd c.weather_conditions)) then
        ⟨true, some ((sub_contexts fd c.weather_conditions).foldl ctx_update [])⟩
      else ⟨false, none⟩ := by
  simp only [evaluate_combined]
  rw [combined_foldl]
  simp

lemma sub_contexts_nodup (fd : List DailyForecast) (ws : List WeatherCond) :
    ∀ cx ∈ sub_contexts fd ws, (cx.map Prod.fst).Nodup := by
  intro cx hcx
  simp only [sub_contexts, List.mem_filterMap] at hcx
  obtain ⟨wc, _, hif⟩ := hcx
  by_cases h : (evaluate_threshold wc fd).triggered
  · rw [if_pos h] at hif
    obtain ⟨date, v, hctx⟩ := evaluate_threshold_triggered_context wc fd h
    have : cx = threshold_context wc date v := by
      rw [hctx] at hif
      simpa using hif.symm
    rw [this]
    exact threshold_context_keys_nodup wc date v
  · rw [if_neg h] at hif
    simp at hif

/-- Claim C3: a combined condition evaluates each sub-condition as an
independent threshold over the same forecast sequence; with `all_must_match`
true (or absent) it triggers iff every sub-condition matches, otherwise iff at
least one matches; on trigger the context is the merge of the matched
sub-contexts in list order, and on a key collision the last matching
sub-context in list order supplies the value. -/
theorem combined_and_or_merge (c : CombinedCond) (forecast_data : List DailyForecast) :
    (c.all_must_match.getD true = true →
      ((evaluate_combined c forecast_data).triggered = true ↔
        sub_matches forecast_data c.weather_conditions = c.weather_conditions.length)) ∧
    (c.all_must_match.getD true = false →
      ((evaluate_combined c forecast_data).triggered = true ↔
        0 < sub_matches forecast_data c.weather_conditions)) ∧
    ((evaluate_combined c forecast_data).triggered = true →
      (evaluate_combined c forecast_data).context =
        some ((sub_contexts forecast_data c.weather_conditions).foldl ctx_update [])) ∧
    ((evaluate_combined c forecast_data).triggered = false →
      (evaluate_combined c forecast_data).context = none) ∧
    (∀ k, (((sub_contexts forecast_data c.weather_conditions).foldl ctx_update []).lookup k) =
      last_wins_lookup (sub_contexts forecast_data c.weather_conditions) k) := by
  refine ⟨?_, ?_, ?_, ?_, ?_⟩
  · intro hall
    rw [evaluate_combined_eq, hall]
    by_cases hm : sub_matches forecast_data c.weather_conditions = c.weather_conditions.length <;>
      simp [hm]
  · intro hall
    rw [evaluate_combined_eq, hall]
    by_cases hm : 0 < sub_matches forecast_data c.weather_conditions <;> simp [hm]
  · intro htrig
    rw [evaluate_combined_eq] at htrig ⊢
    split
    · rfl
    · rename_i hcond
      rw [if_neg hcond] at htrig
      simp at htrig
  · intro htrig
    rw [evaluate_combined_eq] at htrig ⊢
    split
    · rename_i hcond
      rw [if_pos hcond] at htrig
      simp at htrig
    · rfl
  · intro k
    rw [foldl_ctx_update_lookup k _ (sub_contexts_nodup forecast_data c.weather_conditions)]
    cases h : last_wins_lookup (sub_contexts forecast_data c.weather_conditions) k <;> simp

/-- Witness for C3: an AND combination over one hot dry day where both
sub-conditions match, instantiating the all-must-match equivalence. -/
theorem combined_and_or_merge_witness :
    (evaluate_combined
        ⟨[⟨"temperature_max", "gte", 90, some 1⟩, ⟨"precipitation_probability", "lte", 10, some 1⟩],
          some true⟩
        [⟨"2024-07-15", [("temperature_max", some 95), ("precipitation_probability", some 5)]⟩]).triggered = true ↔
      sub_matches [⟨"2024-07-15", [("temperature_max", some 95), ("precipitation_probability", some 5)]⟩]
        [⟨"temperature_max", "gte", 90, some 1⟩, ⟨"precipitation_probability", "lte", 10, some 1⟩] = 2 :=
  (combined_and_or_merge
    ⟨[⟨"temperature_max", "gte", 90, some 1⟩, ⟨"precipitation_probability", "lte", 10, some 1⟩],
      some true⟩
    [⟨"2024-07-15", [("temperature_max", some 95), ("precipitation_probability", some 5)]⟩]).1
    (by decide)

/-- Claim C10: a combined condition with an empty sub-condition list is a
vacuous conjunction: with `all_must_match` absent or true it triggers with an
empty context, and with `all_must_match` false it does not trigger. -/
theorem combined_empty_vacuous (forecast_data : List DailyForecast) :
    evaluate_combined ⟨[], none⟩ forecast_data = ⟨true, some []⟩ ∧
    evaluate_combined ⟨[], some true⟩ forecast_data = ⟨true, some []⟩ ∧
    evaluate_combined ⟨[], some false⟩ forecast_data = ⟨false, none⟩ :=
  ⟨rfl, rfl, rfl⟩

lemma fire_threshold_cases {c : FirstOccCond} {fd : List DailyForecast} {now : Now}
    {sf of : List (String × JVal)} {key : String} {r : EvalResult} {st' : JVal}
    (h : fire_threshold c fd now sf of key = Except.ok (r, st')) :
    (r = ⟨false, none⟩ ∧ st' = JVal.obj sf ∧
      (evaluate_threshold c.weather_condition fd).triggered = false) ∨
    (∃ v, r = evaluate_threshold c.weather_condition fd ∧ r.triggered = true ∧
      context_forecast_date r.context = some v ∧
      st' = JVal.obj (dict_insert sf ("occurrences") (JVal.obj (dict_insert of key
        (JVal.obj
          [(("year"), JVal.num (now.year : Rat)),
           (("date"), JVal.str now.date_string),
           (("forecast_date"), val_to_jval v)]))))) := by
  unfold fire_threshold at h
  by_cases ht : (evaluate_threshold c.weather_condition fd).triggered
  · rw [if_pos ht] at h
    cases hv : context_forecast_date (evaluate_threshold c.weather_condition fd).context with
    | none => rw [hv] at h; simp at h
    | some v =>
      rw [hv] at h
      simp only [Except.ok.injEq, Prod.mk.injEq] at h
      right
      exact ⟨v, h.1.symm, h.1 ▸ ht, h.1 ▸ hv, h.2.symm⟩
  · rw [if_neg ht] at h
    simp only [Except.ok.injEq, Prod.mk.injEq] at h
    left
    exact ⟨h.1.symm, h.2.symm, by simpa using ht⟩

lemma eval_fo_ok_cases {c : FirstOccCond} {fd : List DailyForecast} {now : Now} {st : JVal}
    {r : EvalResult} {st' : JVal}
    (h : evaluate_first_occurrence c fd now st = Except.ok (r, st')) :
    (r = ⟨false, none⟩ ∧ st' = st) ∨
    (∃ sf of v,
      st = JVal.obj sf ∧
      is_in_season now.month (c.season_start_month.getD 1) (c.season_end_month.getD 12) = true ∧
      sf.lookup ("occurrences") = some (JVal.obj of) ∧
      (of.lookup (state_key c.weather_condition.field
          (c.season_start_month.getD 1) (c.season_end_month.getD 12)) = none ∨
        ∃ rf, of.lookup (state_key c.weather_condition.field
            (c.season_start_month.getD 1) (c.season_end_month.getD 12)) =
              some (JVal.obj rf) ∧
          year_matches rf now.year = false) ∧
      r = evaluate_threshold c.weather_condition fd ∧
      r.triggered = true ∧
      context_forecast_date r.context = some v ∧
      st' = JVal.obj (dict_insert sf ("occurrences") (JVal.obj (dict_insert of
        (state_key c.weather_condition.field
          (c.season_start_month.getD 1) (c.season_end_month.getD 12))
        (JVal.obj
          [(("year"), JVal.num (now.year : Rat)),
           (("date"), JVal.str now.date_string),
           (("forecast_date"), val_to_jval v)]))))) := by
  unfold evaluate_first_occurrence at h
  by_cases hseason :
      is_in_season now.month (c.season_start_month.getD 1) (c.season_end_month.getD 12) = false
  · rw [if_pos hseason] at h
    simp only [Except.ok.injEq, Prod.mk.injEq] at h
    exact Or.inl ⟨h.1.symm, h.2.symm⟩
  · rw [if_neg hseason] at h
    have hs : is_in_season now.month (c.season_start_month.getD 1) (c.season_end_month.getD 12)
        = true := by simpa using hseason
    cases st with
    | null => exact Except.noConfusion h
    | bool b => exact Except.noConfusion h
    | num q => exact Except.noConfusion h
    | str s => exact Except.noConfusion h
    | arr xs => exact Except.noConfusion h
    | obj sf =>
      cases hocc : sf.lookup ("occurrences") with
      | none =>
        simp only [hocc] at h
        exact Except.noConfusion h
      | some occval =>
        simp only [hocc] at h
        cases occval with
        | null => exact Except.noConfusion h
        | bool b => exact Except.noConfusion h
        | num q => exact Except.noConfusion h
        | str s => exact Except.noConfusion h
        | arr xs => exact Except.noConfusion h
        | obj of =>
          cases hkey : of.lookup (state_key c.weather_condition.field
              (c.season_start_month.getD 1) (c.season_end_month.getD 12)) with
          | none =>
            simp only [hkey] at h
            rcases fire_threshold_cases h with ⟨h1, h2, _⟩ | ⟨v, h1, h2, h3, h4⟩
            · exact Or.inl ⟨h1, h2⟩
            · exact Or.inr ⟨sf, of, v, rfl, hs, hocc, Or.inl hkey, h1, h2, h3, h4⟩
          | some recval =>
            cases recval with
            | null => simp only [hkey] at h; exact Except.noConfusion h
            | bool b => simp only [hkey] at h; exact Except.noConfusion h
            | num q => simp only [hkey] at h; exact Except.noConfusion h
            | str s => simp only [hkey] at h; exact Except.noConfusion h
            | arr xs => simp only [hkey] at h; exact Except.noConfusion h
            | obj rf =>
              simp only [hkey] at h
              by_cases hyr : year_matches rf now.year
              · rw [if_pos hyr] at h
                simp only [Except.ok.injEq, Prod.mk.injEq] at h
                exact Or.inl ⟨h.1.symm, h.2.symm⟩
              · rw [if_neg hyr] at h
                rcases fire_threshold_cases h with ⟨h1, h2, _⟩ | ⟨v, h1, h2, h3, h4⟩
                · exact Or.inl ⟨h1, h2⟩
                · exact Or.inr ⟨sf, of, v, rfl, hs, hocc,
                    Or.inr ⟨rf, hkey, by simpa using hyr⟩, h1, h2, h3, h4⟩

lemma triggered_forecast_date (wc : WeatherCond) (fd : List DailyForecast)
    (h : (evaluate_threshold wc fd).triggered = true) :
    ∃ v, context_forecast_date (evaluate_threshold wc fd).context = some v := by
  obtain ⟨date, val, hctx⟩ := evaluate_threshold_triggered_context wc fd h
  rw [hctx]
  show ∃ v, (threshold_context wc date val).lookup ("forecast_date") = some v
  rw [threshold_context, lookup_dict_insert]
  by_cases hf : ("forecast_date" : String) = wc.field
  · exact ⟨Val.num val, by rw [if_pos hf]⟩
  · rw [if_neg hf, lookup_dict_insert]
    exact ⟨Val.str date, by rw [if_pos rfl]⟩

lemma fire_threshold_triggered_ok (c : FirstOccCond) (fd : List DailyForecast) (now : Now)
    (sf of : List (String × JVal)) (key : String)
    (ht : (evaluate_threshold c.weather_condition fd).triggered = true) :
    ∃ st', fire_threshold c fd now sf of key =
      Except.ok (evaluate_threshold c.weather_condition fd, st') := by
  obtain ⟨v, hv⟩ := triggered_forecast_date c.weather_condition fd ht
  exact ⟨JVal.obj (dict_insert sf ("occurrences") (JVal.obj (dict_insert of key
      (JVal.obj
        [(("year"), JVal.num (now.year : Rat)),
         (("date"), JVal.str now.date_string),
         (("forecast_date"), val_to_jval v)])))),
    by rw [fire_threshold, if_pos ht, hv]⟩

lemma fire_threshold_not_triggered (c : FirstOccCond) (fd : List DailyForecast) (now : Now)
    (sf of : List (String × JVal)) (key : String)
    (ht : (evaluate_threshold c.weather_condition fd).triggered = false) :
    fire_threshold c fd now sf of key = Except.ok (⟨false, none⟩, JVal.obj sf) := by
  rw [fire_threshold, if_neg (by simp [ht])]

/-- Claim C2: in season, a first-occurrence condition whose state key already
carries a record with the current year returns not-triggered whatever the
forecast data, so the threshold is never re-run; after a triggering call, any
second call in the same year on the resulting store (including after a
persisted save and reload of the same document) does not trigger; a stored
year different from the current one re-arms the condition, which then
triggers again once the threshold does. -/
theorem first_occurrence_once_per_year (c : FirstOccCond) (now : Now) :
    (∀ (sf of rf : List (String × JVal)) (fd : List DailyForecast),
      is_in_season now.month (c.season_start_month.getD 1) (c.season_end_month.getD 12) = true →
      sf.lookup ("occurrences") = some (JVal.obj of) →
      of.lookup (state_key c.weather_condition.field
        (c.season_start_month.getD 1) (c.season_end_month.getD 12)) = some (JVal.obj rf) →
      rf.lookup ("year") = some (JVal.num (now.year : Rat)) →
      evaluate_first_occurrence c fd now (JVal.obj sf) =
        Except.ok (⟨false, none⟩, JVal.obj sf)) ∧
    (∀ (st st' : JVal) (fd fd2 : List DailyForecast) (r : EvalResult) (now2 : Now),
      evaluate_first_occurrence c fd now st = Except.ok (r, st') →
      r.triggered = true →
      now2.year = now.year →
      evaluate_first_occurrence c fd2 now2 st' = Except.ok (⟨false, none⟩, st')) ∧
    (∀ (sf of rf : List (String × JVal)) (fd : List DailyForecast) (y : Rat),
      is_in_season now.month (c.season_start_month.getD 1) (c.season_end_month.getD 12) = true →
      sf.lookup ("occurrences") = some (JVal.obj of) →
      of.lookup (state_key c.weather_condition.field
        (c.season_start_month.getD 1) (c.season_end_month.getD 12)) = some (JVal.obj rf) →
      rf.lookup ("year") = some (JVal.num y) →
      y ≠ (now.year : Rat) →
      (evaluate_threshold c.weather_condition fd).triggered = true →
      ∃ st', evaluate_first_occurrence c fd now (JVal.obj sf) =
        Except.ok (evaluate_threshold c.weather_condition fd, st')) := by
  refine ⟨?_, ?_, ?_⟩
  · intro sf of rf fd hs hocc hkey hyear
    simp [evaluate_first_occurrence, hs, hocc, hkey, year_matches, hyear]
  · intro st st' fd fd2 r now2 h htrig hyear
    rcases eval_fo_ok_cases h with ⟨h1, _⟩ | ⟨sf, of, v, _, _, _, _, _, _, _, hst'⟩
    · rw [h1] at htrig
      simp at htrig
    · subst hst'
      by_cases hs2 : is_in_season now2.month
          (c.season_start_month.getD 1) (c.season_end_month.getD 12) = false
      · unfold evaluate_first_occurrence
        rw [if_pos hs2]
      · have hs2' : is_in_season now2.month
            (c.season_start_month.getD 1) (c.season_end_month.getD 12) = true := by
          simpa using hs2
        simp [evaluate_first_occurrence, hs2', lookup_dict_insert, year_matches,
          List.lookup, hyear]
  · intro sf of rf fd y hs hocc hkey hyear hy ht
    have hym : year_matches rf now.year = false := by
      simp [year_matches, hyear, hy]
    obtain ⟨st', hfire⟩ := fire_threshold_triggered_ok c fd now sf of
      (state_key c.weather_condition.field
        (c.season_start_month.getD 1) (c.season_end_month.getD 12)) ht
    refine ⟨st', ?_⟩
    simp [evaluate_first_occurrence, hs, hocc, hkey, hym, hfire]

/-- Claim C7: a first-occurrence evaluation mutates the store only when
in-season, not already fired this year, and the threshold triggers; out of
season the result is not-triggered with the store unchanged and does not
depend on the forecast data (the threshold is not evaluated); every
non-triggering successful run leaves the store exactly as it was. -/
theorem first_occurrence_frame (c : FirstOccCond) (now : Now) (st : JVal)
    (fd : List DailyForecast) :
    (is_in_season now.month (c.season_start_month.getD 1) (c.season_end_month.getD 12) = false →
      ∀ fd2, evaluate_first_occurrence c fd2 now st = Except.ok (⟨false, none⟩, st)) ∧
    (∀ (r : EvalResult) (st' : JVal),
      evaluate_first_occurrence c fd now st = Except.ok (r, st') →
      r.triggered = false → st' = st ∧ r = ⟨false, none⟩) ∧
    (∀ (r : EvalResult) (st' : JVal),
      evaluate_first_occurrence c fd now st = Except.ok (r, st') → st' ≠ st →
      is_in_season now.month (c.season_start_month.getD 1) (c.season_end_month.getD 12) = true ∧
      r = evaluate_threshold c.weather_condition fd ∧ r.triggered = true ∧
      ∃ sf of, st = JVal.obj sf ∧ sf.lookup ("occurrences") = some (JVal.obj of) ∧
        (of.lookup (state_key c.weather_condition.field
            (c.season_start_month.getD 1) (c.season_end_month.getD 12)) = none ∨
          ∃ rf, of.lookup (state_key c.weather_condition.field
              (c.season_start_month.getD 1) (c.season_end_month.getD 12)) =
                some (JVal.obj rf) ∧
            year_matches rf now.year = false)) := by
  refine ⟨?_, ?_, ?_⟩
  · intro hseason fd2
    unfold evaluate_first_occurrence
    rw [if_pos hseason]
  · intro r st' h htrig
    rcases eval_fo_ok_cases h with ⟨h1, h2⟩ | ⟨_, _, _, _, _, _, _, _, htrig2, _, _⟩
    · exact ⟨h2, h1⟩
    · exact Bool.noConfusion (htrig.symm.trans htrig2)
  · intro r st' h hne
    rcases eval_fo_ok_cases h with ⟨_, h2⟩ | ⟨sf, of, v, hst, hs, hocc, hnf, hr, htrig2, _, _⟩
    · exact absurd h2 hne
    · exact ⟨hs, hr, htrig2, sf, of, hst, hocc, hnf⟩

/-- Sample three-day forecast mirroring the repository's test fixture. -/
def sample_forecast : List DailyForecast :=
  [⟨"2024-01-15", [("temperature_min", some 28), ("temperature_max", some 45),
      ("precipitation_probability", some 20)]⟩,
   ⟨"2024-01-16", [("temperature_min", some 35), ("temperature_max", some 52),
      ("precipitation_probability", some 10)]⟩,
   ⟨"2024-01-17", [("temperature_min", some 40), ("temperature_max", some 65),
      ("precipitation_probability", some 80)]⟩]

/-- First-freeze condition used by concrete witnesses: minimum temperature at
or below 32 within two days, season August through December. -/
def freeze_condition : FirstOccCond :=
  ⟨⟨"temperature_min", "lte", 32, some 2⟩, some 8, some 12⟩

/-- A mid-October run date, in the freeze season. -/
def october_now : Now := ⟨2024, 10, "2024-10-15"⟩

/-- A mid-July run date, out of the freeze season. -/
def july_now : Now := ⟨2024, 7, "2024-07-15"⟩

/-- Store fields after the freeze condition fired in 2024. -/
def fired_state_fields : List (String × JVal) :=
  [(("occurrences"), JVal.obj
    [(("first_temperature_min_8_12"), JVal.obj
      [(("year"), JVal.num 2024),
       (("date"), JVal.str "2024-10-15"),
       (("forecast_date"), JVal.str "2024-01-15")])])]

/-- Store fields carrying a record from the previous season year 2023. -/
def stale_state_fields : List (String × JVal) :=
  [(("occurrences"), JVal.obj
    [(("first_temperature_min_8_12"), JVal.obj
      [(("year"), JVal.num 2023),
       (("date"), JVal.str "2023-11-02"),
       (("forecast_date"), JVal.str "2023-11-03")])])]

/-- Witness for C2: with a 2024 record stored, an October 2024 run returns
not-triggered and leaves the store alone; after a triggering run from the
empty store, a second run the same year does not trigger; a stale 2023 record
re-arms the condition. -/
theorem first_occurrence_once_per_year_witness :
    evaluate_first_occurrence freeze_condition sample_forecast october_now
      (JVal.obj fired_state_fields) =
      Except.ok (⟨false, none⟩, JVal.obj fired_state_fields) ∧
    evaluate_first_occurrence freeze_condition sample_forecast october_now
      (JVal.obj fired_state_fields) =
      Except.ok (⟨false, none⟩, JVal.obj fired_state_fields) ∧
    (∃ st', evaluate_first_occurrence freeze_condition sample_forecast october_now
      (JVal.obj stale_state_fields) =
      Except.ok (evaluate_threshold freeze_condition.weather_condition sample_forecast, st')) := by
  refine ⟨?_, ?_, ?_⟩
  · exact (first_occurrence_once_per_year freeze_condition october_now).1
      [(("occurrences"), JVal.obj
        [(("first_temperature_min_8_12"), JVal.obj
          [(("year"), JVal.num 2024),
           (("date"), JVal.str "2024-10-15"),
           (("forecast_date"), JVal.str "2024-01-15")])])]
      [(("first_temperature_min_8_12"), JVal.obj
        [(("year"), JVal.num 2024),
         (("date"), JVal.str "2024-10-15"),
         (("forecast_date"), JVal.str "2024-01-15")])]
      [(("year"), JVal.num 2024),
       (("date"), JVal.str "2024-10-15"),
       (("forecast_date"), JVal.str "2024-01-15")]
      sample_forecast rfl rfl rfl rfl
  · exact (first_occurrence_once_per_year freeze_condition october_now).2.1
      empty_state (JVal.obj fired_state_fields) sample_forecast sample_forecast
      ⟨true, some [("forecast_date", Val.str "2024-01-15"), ("temperature_min", Val.num 28)]⟩
      october_now rfl rfl rfl
  · exact (first_occurrence_once_per_year freeze_condition october_now).2.2
      [(("occurrences"), JVal.obj
        [(("first_temperature_min_8_12"), JVal.obj
          [(("year"), JVal.num 2023),
           (("date"), JVal.str "2023-11-02"),
           (("forecast_date"), JVal.str "2023-11-03")])])]
      [(("first_temperature_min_8_12"), JVal.obj
        [(("year"), JVal.num 2023),
         (("date"), JVal.str "2023-11-02"),
         (("forecast_date"), JVal.str "2023-11-03")])]
      [(("year"), JVal.num 2023),
       (("date"), JVal.str "2023-11-02"),
       (("forecast_date"), JVal.str "2023-11-03")]
      sample_forecast 2023 rfl rfl rfl rfl (by decide) rfl

/-- Witness for C7: a July run is out of season, returns not-triggered on any
forecast and leaves the store untouched; an October non-triggering run (empty
forecast) also leaves the store untouched. -/
theorem first_occurrence_frame_witness :
    evaluate_first_occurrence freeze_condition sample_forecast july_now
      (JVal.obj fired_state_fields) =
      Except.ok (⟨false, none⟩, JVal.obj fired_state_fields) ∧
    (empty_state = empty_state ∧
      (⟨false, none⟩ : EvalResult) = ⟨false, none⟩) := by
  constructor
  · exact (first_occurrence_frame freeze_condition july_now
      (JVal.obj fired_state_fields) sample_forecast).1 rfl sample_forecast
  · exact (first_occurrence_frame freeze_condition october_now empty_state []).2.1
      ⟨false, none⟩ empty_state rfl rfl

/-- Amended claim C4: a state file that is absent, unreadable, or not
decodable as JSON loads as the empty store, over which first-occurrence
evaluation always succeeds; a file that decodes to any JSON document is kept
verbatim, even when it is not a well-formed store. -/
theorem state_load_fail_open :
    load_state LoadResult.absent = empty_state ∧
    load_state LoadResult.ioError = empty_state ∧
    load_state LoadResult.parseError = empty_state ∧
    (∀ doc, load_state (LoadResult.parsed doc) = doc) ∧
    (∀ (c : FirstOccCond) (fd : List DailyForecast) (now : Now),
      ∃ r st', evaluate_first_occurrence c fd now empty_state = Except.ok (r, st')) := by
  refine ⟨rfl, rfl, rfl, fun doc => rfl, ?_⟩
  intro c fd now
  by_cases hseason : is_in_season now.month
      (c.season_start_month.getD 1) (c.season_end_month.getD 12) = false
  · exact ⟨⟨false, none⟩, empty_state, by unfold evaluate_first_occurrence; rw [if_pos hseason]⟩
  · have hs : is_in_season now.month
        (c.season_start_month.getD 1) (c.season_end_month.getD 12) = true := by
      simpa using hseason
    by_cases ht : (evaluate_threshold c.weather_condition fd).triggered
    · obtain ⟨st', hfire⟩ := fire_threshold_triggered_ok c fd now
        [(("occurrences"), JVal.obj [])] []
        (state_key c.weather_condition.field
          (c.season_start_month.getD 1) (c.season_end_month.getD 12)) ht
      exact ⟨evaluate_threshold c.weather_condition fd, st',
        by simp [evaluate_first_occurrence, empty_state, hs, List.lookup, hfire]⟩
    · have ht' : (evaluate_threshold c.weather_condition fd).triggered = false := by
        simpa using ht
      exact ⟨⟨false, none⟩, JVal.obj [(("occurrences"), JVal.obj [])],
        by simp [evaluate_first_occurrence, empty_state, hs, List.lookup,
          fire_threshold_not_triggered c fd now [(("occurrences"), JVal.obj [])] [] _ ht']⟩

/-- Counterexample to C4 as stated: the empty JSON object decodes
successfully, so `_load_state` keeps it verbatim instead of falling back to
the empty store, and an in-season first-occurrence evaluation over it raises
a key error when reading `state['occurrences']`. -/
theorem state_load_schema_counterexample :
    load_state (LoadResult.parsed (JVal.obj [])) ≠ empty_state ∧
    evaluate_first_occurrence ⟨⟨"temperature_min", "lte", 32, some 1⟩, none, none⟩ []
      october_now (load_state (LoadResult.parsed (JVal.obj []))) =
      Except.error PyError.keyError := by
  constructor
  · intro hcontra
    simp [load_state, empty_state] at hcontra
  · rfl

lemma data_append (s t : String) : (s ++ t).data = s.data ++ t.data := rfl

lemma string_ext {s t : String} (h : s.data = t.data) : s = t := by
  cases s; cases t; exact congrArg String.mk h

lemma sep_split : ∀ (A1 A2 B1 B2 : List Char), '_' ∉ A1 → '_' ∉ A2 →
    A1 ++ '_' :: B1 = A2 ++ '_' :: B2 → A1 = A2 ∧ B1 = B2 := by
  intro A1
  induction A1 with
  | nil =>
    intro A2 B1 B2 _ h2 h
    cases A2 with
    | nil => simpa using h
    | cons b A2' =>
      exfalso
      simp only [List.nil_append, List.cons_append] at h
      have hb : '_' = b := (List.cons.inj h).1
      exact h2 (by rw [← hb]; exact List.mem_cons_self _ _)
  | cons a A1' ih =>
    intro A2 B1 B2 h1 h2 h
    cases A2 with
    | nil =>
      exfalso
      simp only [List.nil_append, List.cons_append] at h
      have ha : a = '_' := (List.cons.inj h).1
      exact h1 (by rw [← ha]; exact List.mem_cons_self _ _)
    | cons b A2' =>
      simp only [List.cons_append] at h
      obtain ⟨hab, h'⟩ := List.cons.inj h
      have h1' : '_' ∉ A1' := fun hm => h1 (List.mem_cons_of_mem _ hm)
      have h2' : '_' ∉ A2' := fun hm => h2 (List.mem_cons_of_mem _ hm)
      obtain ⟨hA, hB⟩ := ih A2' B1 B2 h1' h2' h'
      exact ⟨by rw [hab, hA], hB⟩

lemma month_data_no_sep (m : Int) (h1 : 1 ≤ m) (h2 : m ≤ 12) :
    ('_' : Char) ∉ (toString m).data := by
  interval_cases m <;> decide

lemma month_to_string_inj (m1 m2 : Int) (ha : 1 ≤ m1) (hb : m1 ≤ 12)
    (hc : 1 ≤ m2) (hd : m2 ≤ 12) (h : (toString m1).data = (toString m2).data) :
    m1 = m2 := by
  interval_cases m1 <;> interval_cases m2 <;> revert h <;> decide

/-- Claim C8: the first-occurrence state key is injective on the monitored
field name together with the season bounds, for months in 1..12: the month
renderings contain no underscore, so the last two underscore-separated tokens
of the key determine the months and the rest determines the field.  Being a
pure function of these inputs, the key is also stable across runs. -/
theorem state_key_injective (f1 f2 : String) (s1 e1 s2 e2 : Int)
    (hs1 : 1 ≤ s1) (hs1' : s1 ≤ 12) (he1 : 1 ≤ e1) (he1' : e1 ≤ 12)
    (hs2 : 1 ≤ s2) (hs2' : s2 ≤ 12) (he2 : 1 ≤ e2) (he2' : e2 ≤ 12)
    (h : state_key f1 s1 e1 = state_key f2 s2 e2) :
    f1 = f2 ∧ s1 = s2 ∧ e1 = e2 := by
  have hd0 : (state_key f1 s1 e1).data = (state_key f2 s2 e2).data := congrArg String.data h
  simp only [state_key, data_append, List.append_assoc,
    show ("_" : String).data = ['_'] from rfl, List.singleton_append] at hd0
  have hd2 : f1.data ++ '_' :: ((toString s1).data ++ '_' :: (toString e1).data) =
      f2.data ++ '_' :: ((toString s2).data ++ '_' :: (toString e2).data) :=
    List.append_cancel_left hd0
  have hr := congrArg List.reverse hd2
  simp only [List.reverse_append, List.reverse_cons, List.append_assoc,
    List.singleton_append, List.nil_append] at hr
  obtain ⟨hte, hrest⟩ := sep_split _ _ _ _
    (fun hm => month_data_no_sep e1 he1 he1' (List.mem_reverse.mp hm))
    (fun hm => month_data_no_sep e2 he2 he2' (List.mem_reverse.mp hm)) hr
  obtain ⟨hts, hf⟩ := sep_split _ _ _ _
    (fun hm => month_data_no_sep s1 hs1 hs1' (List.mem_reverse.mp hm))
    (fun hm => month_data_no_sep s2 hs2 hs2' (List.mem_reverse.mp hm)) hrest
  refine ⟨?_, ?_, ?_⟩
  · exact string_ext (List.reverse_injective hf)
  · exact month_to_string_inj s1 s2 hs1 hs1' hs2 hs2' (List.reverse_injective hts)
  · exact month_to_string_inj e1 e2 he1 he1' he2 he2' (List.reverse_injective hte)

/-- Witness for C8: two occurrences of the freeze key coincide exactly when
field and months coincide, instantiated at the August-December season. -/
theorem state_key_injective_witness :
    ("temperature_min" : String) = "temperature_min" ∧ (8 : Int) = 8 ∧ (12 : Int) = 12 :=
  state_key_injective "temperature_min" "temperature_min" 8 12 8 12
    (by decide) (by decide) (by decide) (by decide)
    (by decide) (by decide) (by decide) (by decide) rfl

/-- Python `str(value)` applied to a context value before substitution
(email.py line 81). -/
def str_of_val : Val → String
  | Val.str s => s
  | Val.num q => toString q

/-- The opening brace character. -/
def lbrace : Char := Char.ofNat 123

/-- The closing brace character. -/
def rbrace : Char := Char.ofNat 125

/-- The literal placeholder text built for a context key (email.py line 80). -/
def placeholder (k : String) : List Char := lbrace :: (k.data ++ [rbrace])

/-- One pass of Python `str.replace`: leftmost non-overlapping occurrences of
the pattern are replaced, scanning left to right, and replacement text is not
rescanned within the same pass.  The fuel argument only drives structural
recursion; it is always instantiated with the input length, which suffices
because every step consumes at least one character (the pattern, a
brace-wrapped key, is never empty). -/
def replace_go (pat rep : List Char) : Nat → List Char → List Char
  | 0, l => l
  | _ + 1, [] => []
  | fuel + 1, c :: rest =>
    if pat ≠ [] ∧ pat.isPrefixOf (c :: rest) then
      rep ++ replace_go pat rep fuel (List.drop pat.length (c :: rest))
    else
      c :: replace_go pat rep fuel rest

/-- Python `result.replace(pat, rep)` over character lists. -/
def replace_all (pat rep l : List Char) : List Char := replace_go pat rep l.length l

/-- Embedding of `EmailAction._substitute_template` (email.py lines 68-82):
one `str.replace` per context entry, in context order, over the evolving
result string. -/
def substitute_template (template : List Char) (context : List (String × Val)) : List Char :=
  context.foldl
    (fun result kv => replace_all (placeholder kv.1) (str_of_val kv.2).data result) template

/-- A template parsed into literal chunks and placeholders, the shape over
which the spec's simultaneous reading of substitution is expressible. -/
inductive Seg where
  | lit (chunk : List Char)
  | ph (key : String)

/-- The raw text of a parsed template. -/
def render : List Seg → List Char
  | [] => []
  | Seg.lit chunk :: rest => chunk ++ render rest
  | Seg.ph k :: rest => placeholder k ++ render rest

/-- Whether a character list contains no brace. -/
def brace_free (l : List Char) : Bool := decide (lbrace ∉ l) && decide (rbrace ∉ l)

/-- A well-formed segment: literal chunks and placeholder keys are
brace-free. -/
def seg_wf : Seg → Bool
  | Seg.lit chunk => brace_free chunk
  | Seg.ph k => brace_free k.data

/-- Substitution of a single key into a parsed template. -/
def subst_one (k : String) (rep : List Char) : Seg → Seg
  | Seg.lit chunk => Seg.lit chunk
  | Seg.ph w => if w = k then Seg.lit rep else Seg.ph w

/-- Spec-side single-pass substitution of a whole context (the claim's
words): a placeholder whose key is in the context becomes the string form of
its value, every other placeholder stays verbatim, literals are untouched. -/
def subst_seg (context : List (String × Val)) : Seg → Seg
  | Seg.lit chunk => Seg.lit chunk
  | Seg.ph w =>
    match context.lookup w with
    | some v => Seg.lit (str_of_val v).data
    | none => Seg.ph w

/-- Spec-side simultaneous substitution over the rendered template. -/
def simultaneous_subst (t : List Seg) (context : List (String × Val)) : List Char :=
  render (t.map (subst_seg context))

lemma brace_free_spec {l : List Char} (h : brace_free l = true) :
    lbrace ∉ l ∧ rbrace ∉ l := by
  simp only [brace_free, Bool.and_eq_true, decide_eq_true_eq] at h
  exact h

lemma replace_go_fuel (pat rep : List Char) :
    ∀ (fuel fuel' : Nat) (l : List Char), l.length ≤ fuel → l.length ≤ fuel' →
    replace_go pat rep fuel l = replace_go pat rep fuel' l := by
  intro fuel
  induction fuel with
  | zero =>
    intro fuel' l hl hl'
    have hnil : l = [] := List.eq_nil_of_length_eq_zero (Nat.le_zero.mp hl)
    subst hnil
    cases fuel' <;> rfl
  | succ f ih =>
    intro fuel' l hl hl'
    cases l with
    | nil => cases fuel' <;> rfl
    | cons c rest =>
      cases fuel' with
      | zero => simp at hl'
      | succ f' =>
        simp only [List.length_cons] at hl hl'
        simp only [replace_go]
        by_cases hp : pat ≠ [] ∧ pat.isPrefixOf (c :: rest)
        · rw [if_pos hp, if_pos hp]
          have hplen : 1 ≤ pat.length := by
            cases hq : pat with
            | nil => exact absurd hq hp.1
            | cons p ps => simp
          congr 1
          apply ih
          · simp only [List.length_drop, List.length_cons]
            omega
          · simp only [List.length_drop, List.length_cons]
            omega
        · rw [if_neg hp, if_neg hp]
          congr 1
          apply ih <;> omega

lemma replace_all_pos (pat rep : List Char) (c : Char) (rest : List Char)
    (hp : pat ≠ [] ∧ pat.isPrefixOf (c :: rest)) :
    replace_all pat rep (c :: rest) =
      rep ++ replace_all pat rep (List.drop pat.length (c :: rest)) := by
  unfold replace_all
  simp only [List.length_cons, replace_go]
  rw [if_pos hp]
  congr 1
  have hplen : 1 ≤ pat.length := by
    cases hq : pat with
    | nil => exact absurd hq hp.1
    | cons p ps => simp
  apply replace_go_fuel
  · simp only [List.length_drop, List.length_cons]
    omega
  · exact le_rfl

lemma replace_all_neg (pat rep : List Char) (c : Char) (rest : List Char)
    (hp : ¬ (pat ≠ [] ∧ pat.isPrefixOf (c :: rest))) :
    replace_all pat rep (c :: rest) = c :: replace_all pat rep rest := by
  unfold replace_all
  simp only [List.length_cons, replace_go]
  rw [if_neg hp]

lemma replace_all_chunk (p rep : List Char) (chunk : List Char) (t : List Char)
    (hch : lbrace ∉ chunk) :
    replace_all (lbrace :: p) rep (chunk ++ t) = chunk ++ replace_all (lbrace :: p) rep t := by
  induction chunk with
  | nil => rfl
  | cons c ch ih =>
    have hc : lbrace ≠ c := fun he => hch (by rw [he]; exact List.mem_cons_self _ _)
    have hnp : ¬ ((lbrace :: p) ≠ [] ∧ (lbrace :: p).isPrefixOf (c :: (ch ++ t))) := by
      rintro ⟨-, hpre⟩
      have h3 : (lbrace == c && p.isPrefixOf (ch ++ t)) = true := hpre
      rw [show (lbrace == c) = false from beq_eq_false_iff_ne.mpr hc, Bool.false_and] at h3
      exact Bool.noConfusion h3
    rw [List.cons_append, replace_all_neg _ _ _ _ hnp,
      ih (fun hm => hch (List.mem_cons_of_mem _ hm))]
    rfl

lemma isPrefixOf_append_self (l t : List Char) : (l.isPrefixOf (l ++ t)) = true := by
  induction l with
  | nil => cases t <;> rfl
  | cons a l' ih =>
    show ((a == a) && l'.isPrefixOf (l' ++ t)) = true
    rw [ih, beq_self_eq_true, Bool.and_true]

lemma append_sep_no_further_match : ∀ (xs ys : List Char) (t : List Char),
    rbrace ∉ xs → rbrace ∉ ys → xs ≠ ys →
    ((xs ++ [rbrace]).isPrefixOf (ys ++ rbrace :: t)) = false := by
  intro xs
  induction xs with
  | nil =>
    intro ys t _ hy hne
    cases ys with
    | nil => exact absurd rfl hne
    | cons b ys' =>
      have hb : rbrace ≠ b := fun he => hy (by rw [he]; exact List.mem_cons_self _ _)
      show ((rbrace == b) && _) = false
      rw [show (rbrace == b) = false from beq_eq_false_iff_ne.mpr hb, Bool.false_and]
  | cons a xs' ih =>
    intro ys t hx hy hne
    cases ys with
    | nil =>
      have ha : a ≠ rbrace := fun he => hx (by rw [← he]; exact List.mem_cons_self _ _)
      show ((a == rbrace) && _) = false
      rw [show (a == rbrace) = false from beq_eq_false_iff_ne.mpr ha, Bool.false_and]
    | cons b ys' =>
      by_cases hab : a = b
      · subst hab
        have hx' : rbrace ∉ xs' := fun hm => hx (List.mem_cons_of_mem _ hm)
        have hy' : rbrace ∉ ys' := fun hm => hy (List.mem_cons_of_mem _ hm)
        have hne' : xs' ≠ ys' := fun he => hne (by rw [he])
        show ((a == a) && ((xs' ++ [rbrace]).isPrefixOf (ys' ++ rbrace :: t))) = false
        rw [ih ys' t hx' hy' hne', Bool.and_false]
      · show ((a == b) && _) = false
        rw [show (a == b) = false from beq_eq_false_iff_ne.mpr hab, Bool.false_and]

lemma replace_all_render (k : String) (rep : List Char) (hk : brace_free k.data = true) :
    ∀ t : List Seg, (∀ s ∈ t, seg_wf s = true) →
    replace_all (placeholder k) rep (render t) = render (t.map (subst_one k rep)) := by
  intro t
  induction t with
  | nil => intro _; rfl
  | cons seg rest ih =>
    intro hwf
    have hwrest : ∀ s ∈ rest, seg_wf s = true := fun s hs => hwf s (List.mem_cons_of_mem _ hs)
    cases seg with
    | lit chunk =>
      have hch := brace_free_spec (hwf (Seg.lit chunk) (List.mem_cons_self _ _))
      show replace_all (placeholder k) rep (chunk ++ render rest) =
        chunk ++ render (rest.map (subst_one k rep))
      have ih' := ih hwrest
      rw [show placeholder k = lbrace :: (k.data ++ [rbrace]) from rfl] at ih'
      rw [show placeholder k = lbrace :: (k.data ++ [rbrace]) from rfl,
        replace_all_chunk _ _ chunk _ hch.1, ih']
    | ph w =>
      have hw := brace_free_spec (hwf (Seg.ph w) (List.mem_cons_self _ _))
      have hkf := brace_free_spec hk
      by_cases hwk : w = k
      · subst hwk
        show replace_all (placeholder w) rep (placeholder w ++ render rest) =
          render (subst_one w rep (Seg.ph w) :: rest.map (subst_one w rep))
        have hcond : (placeholder w) ≠ [] ∧
            ((placeholder w).isPrefixOf
              (lbrace :: ((w.data ++ [rbrace]) ++ render rest))) = true := by
          constructor
          · simp [placeholder]
          · exact isPrefixOf_append_self (placeholder w) (render rest)
        rw [show placeholder w ++ render rest =
          lbrace :: ((w.data ++ [rbrace]) ++ render rest) from rfl]
        rw [replace_all_pos _ _ _ _ hcond]
        have hdrop : List.drop (placeholder w).length
            (lbrace :: ((w.data ++ [rbrace]) ++ render rest)) = render rest := by
          rw [show (lbrace :: ((w.data ++ [rbrace]) ++ render rest) : List Char) =
            placeholder w ++ render rest from rfl]
          exact List.drop_left _ _
        rw [hdrop, ih hwrest]
        simp [subst_one, render]
      · show replace_all (placeholder k) rep (placeholder w ++ render rest) =
          render (subst_one k rep (Seg.ph w) :: rest.map (subst_one k rep))
        have hnp1 : ¬ ((placeholder k) ≠ [] ∧
            ((placeholder k).isPrefixOf
              (lbrace :: ((w.data ++ [rbrace]) ++ render rest))) = true) := by
          rintro ⟨-, hpre⟩
          have h3 : ((lbrace == lbrace) &&
              ((k.data ++ [rbrace]).isPrefixOf
                ((w.data ++ [rbrace]) ++ render rest))) = true := hpre
          rw [beq_self_eq_true, Bool.true_and] at h3
          rw [List.append_assoc, List.singleton_append] at h3
          rw [append_sep_no_further_match k.data w.data (render rest) hkf.2 hw.2
            (fun he => hwk (string_ext he).symm)] at h3
          exact Bool.noConfusion h3
        rw [show placeholder w ++ render rest =
          lbrace :: ((w.data ++ [rbrace]) ++ render rest) from rfl]
        rw [replace_all_neg _ _ _ _ hnp1]
        rw [List.append_assoc, List.singleton_append]
        rw [show placeholder k = lbrace :: (k.data ++ [rbrace]) from rfl]
        rw [replace_all_chunk _ _ w.data _ hw.1]
        have hnp2 : ¬ ((lbrace :: (k.data ++ [rbrace])) ≠ [] ∧
            ((lbrace :: (k.data ++ [rbrace])).isPrefixOf (rbrace :: render rest)) = true) := by
          rintro ⟨-, hpre⟩
          have h3 : ((lbrace == rbrace) &&
              ((k.data ++ [rbrace]).isPrefixOf (render rest))) = true := hpre
          rw [show (lbrace == rbrace) = false from by decide, Bool.false_and] at h3
          exact Bool.noConfusion h3
        have ih' := ih hwrest
        rw [show placeholder k = lbrace :: (k.data ++ [rbrace]) from rfl] at ih'
        rw [replace_all_neg _ _ _ _ hnp2, ih']
        simp [subst_one, hwk, render, placeholder, List.append_assoc]

lemma subst_seg_nil (s : Seg) : subst_seg [] s = s := by
  cases s <;> rfl

lemma subst_seg_cons (kv : String × Val) (context : List (String × Val)) (s : Seg) :
    subst_seg (kv :: context) s =
      subst_seg context (subst_one kv.1 (str_of_val kv.2).data s) := by
  obtain ⟨k0, v0⟩ := kv
  cases s with
  | lit chunk => rfl
  | ph w =>
    by_cases hw : w = k0
    · show (match List.lookup w ((k0, v0) :: context) with
        | some v => Seg.lit (str_of_val v).data
        | none => Seg.ph w) = subst_seg context (subst_one k0 (str_of_val v0).data (Seg.ph w))
      rw [lookup_cons_eq w k0 v0 context hw]
      simp [subst_one, hw, subst_seg]
    · show (match List.lookup w ((k0, v0) :: context) with
        | some v => Seg.lit (str_of_val v).data
        | none => Seg.ph w) = subst_seg context (subst_one k0 (str_of_val v0).data (Seg.ph w))
      rw [lookup_cons_ne w k0 v0 context hw]
      simp [subst_one, hw, subst_seg]

lemma seg_wf_subst_one (k : String) (rep : List Char) (hrep : brace_free rep = true) :
    ∀ s, seg_wf s = true → seg_wf (subst_one k rep s) = true := by
  intro s hs
  cases s with
  | lit chunk => exact hs
  | ph w =>
    by_cases hw : w = k
    · simp only [subst_one, if_pos hw]
      exact hrep
    · simp only [subst_one, if_neg hw]
      exact hs

/-- Amended claim C9: over a template made of brace-free literal chunks and
brace-free placeholders, and a context whose keys and substituted value
strings are brace-free, the sequential per-key replacement of
`_substitute_template` coincides with the single-pass simultaneous
substitution: every placeholder whose key is in the context is replaced
(repeated placeholders included) by the string form of its value, and every
other placeholder is left verbatim. -/
theorem substitute_template_simultaneous :
    ∀ (context : List (String × Val)) (t : List Seg),
    (∀ s ∈ t, seg_wf s = true) →
    (∀ kv ∈ context, brace_free (Prod.fst kv : String).data = true) →
    (∀ kv ∈ context, brace_free (str_of_val kv.2).data = true) →
    substitute_template (render t) context = simultaneous_subst t context := by
  intro context
  induction context with
  | nil =>
    intro t _ _ _
    show render t = render (t.map (subst_seg []))
    have hmap : t.map (subst_seg []) = t.map id :=
      List.map_congr_left (fun s _ => subst_seg_nil s)
    rw [hmap, List.map_id]
  | cons kv context' ih =>
    intro t hwf hkeys hvals
    have hk := hkeys kv (List.mem_cons_self _ _)
    have hv := hvals kv (List.mem_cons_self _ _)
    unfold substitute_template
    rw [List.foldl_cons]
    rw [replace_all_render kv.1 (str_of_val kv.2).data hk t hwf]
    have hwf' : ∀ s ∈ t.map (subst_one kv.1 (str_of_val kv.2).data), seg_wf s = true := by
      intro s hs
      rw [List.mem_map] at hs
      obtain ⟨s0, hs0, rfl⟩ := hs
      exact seg_wf_subst_one kv.1 _ hv s0 (hwf s0 hs0)
    have hrec := ih (t.map (subst_one kv.1 (str_of_val kv.2).data)) hwf'
      (fun kv2 h2 => hkeys kv2 (List.mem_cons_of_mem _ h2))
      (fun kv2 h2 => hvals kv2 (List.mem_cons_of_mem _ h2))
    unfold substitute_template at hrec
    rw [hrec]
    simp only [simultaneous_subst, List.map_map]
    congr 1
    exact List.map_congr_left (fun s _ => (subst_seg_cons kv context' s).symm)

/-- Witness for C9's amended statement: a brace-free template and context,
with the hypotheses evaluated concretely. -/
theorem substitute_template_simultaneous_witness :
    substitute_template (render [Seg.lit ("Freeze on ").data, Seg.ph "forecast_date"])
      [("forecast_date", Val.str "2024-01-15"), ("low", Val.str "28")] =
    simultaneous_subst [Seg.lit ("Freeze on ").data, Seg.ph "forecast_date"]
      [("forecast_date", Val.str "2024-01-15"), ("low", Val.str "28")] :=
  substitute_template_simultaneous
    [("forecast_date", Val.str "2024-01-15"), ("low", Val.str "28")]
    [Seg.lit ("Freeze on ").data, Seg.ph "forecast_date"]
    (by decide) (by decide) (by decide)

/-- Counterexample to C9 as stated: with context a ↦ the text of a b
placeholder and b ↦ X, the sequential replacement first turns the template
placeholder a into a b placeholder and then substitutes it again, producing X
instead of leaving the substituted value text verbatim as the simultaneous
reading requires. -/
theorem substitute_template_sequential_counterexample :
    substitute_template (render [Seg.ph "a"])
        [("a", Val.str "\x7bb\x7d"), ("b", Val.str "X")] ≠
      simultaneous_subst [Seg.ph "a"] [("a", Val.str "\x7bb\x7d"), ("b", Val.str "X")] ∧
    substitute_template (render [Seg.ph "a"])
        [("a", Val.str "\x7bb\x7d"), ("b", Val.str "X")] = ("X").data ∧
    simultaneous_subst [Seg.ph "a"] [("a", Val.str "\x7bb\x7d"), ("b", Val.str "X")] =
      ("\x7bb\x7d").data := by
  refine ⟨by decide, by decide, by decide⟩

end WeatherAlerts
